import Mathlib

/-!
Shallow embedding of the Moduly-cli architecture & risk analysis engine
(src/analyzer/dependencies.ts, src/analyzer/security.ts,
src/analyzer/project.ts).  Pure decision logic is translated directly from
the TypeScript source; I/O collaborators (file reading, Babel parsing, git,
the npm-audit subprocess) are passed in as explicit inputs, matching the
spec's collaborator interfaces.  JavaScript numbers stay inside the safe
integer range throughout this code, so they are modelled as Nat/Int; the
two genuine divisions (coupling ratio, comment ratio) are modelled exactly
over the rationals.  String primitives are re-implemented by structural
recursion over the character list so that every definition evaluates inside
the kernel.
-/

namespace Moduly

/-! ### String primitives (kernel-computable equivalents of the String API) -/

/-- Split a character list at every occurrence of `c` (the separator is a
single character for every use in the analyzer: `/` and newline). -/
def splitCharAux (c : Char) : List Char → List Char → List (List Char)
  | [], cur => [cur.reverse]
  | x :: xs, cur =>
    if x = c then cur.reverse :: splitCharAux c xs [] else splitCharAux c xs (x :: cur)

/-- `String.prototype.split(c)` for a one-character separator. -/
def splitChar (c : Char) (s : String) : List String :=
  (splitCharAux c s.data []).map String.mk

/-- `String.prototype.startsWith`. -/
def strStartsWith (s pre : String) : Bool :=
  pre.data.isPrefixOf s.data

/-- `String.prototype.endsWith`. -/
def strEndsWith (s suf : String) : Bool :=
  suf.data.reverse.isPrefixOf s.data.reverse

/-- Drop the last `n` characters of a string. -/
def strDropRight (s : String) (n : Nat) : String :=
  String.mk (s.data.take (s.data.length - n))

/-- Join a list of strings with `/` separators. -/
def joinSlash : List String → String
  | [] => ""
  | [x] => x
  | x :: y :: rest => x ++ "/" ++ joinSlash (y :: rest)

/-- The whitespace characters recognized by JavaScript's `\s` and `trim()`
that can occur inside a single line of text. -/
def isWsChar (c : Char) : Bool :=
  c = ' ' || c = '\t' || c = '\r' || c = Char.ofNat 11 || c = Char.ofNat 12

/-- `String.prototype.trim()` (leading and trailing whitespace removed). -/
def strTrim (s : String) : String :=
  String.mk (((s.data.dropWhile isWsChar).reverse.dropWhile isWsChar).reverse)

/-! ### POSIX path helpers (node:path as used by the analyzer)

The enumerator hands the analyzer relative, slash-normalized paths, so we
model `path.dirname`, `path.join` and `path.extname` for that domain. -/

/-- Model of `String.prototype.replace(/\\/g, '/')`. -/
def replaceBackslashes (s : String) : String :=
  String.mk (s.data.map (fun c => if c = '\\' then '/' else c))

/-- Resolve `.` and `..` segments left to right, keeping leading `..`
(the normalization step of `path.posix.join`). -/
def resolveDots : List String → List String → List String
  | acc, [] => acc.reverse
  | acc, s :: rest =>
    if s = ".." then
      match acc with
      | [] => resolveDots [".."] rest
      | t :: ts => if t = ".." then resolveDots (s :: t :: ts) rest else resolveDots ts rest
    else resolveDots (s :: acc) rest

/-- Model of `path.posix.join(a, b)` for relative inputs: concatenate with a
separator, then normalize away empty, `.` and resolvable `..` segments. -/
def pathJoin (a b : String) : String :=
  let segs := (splitChar '/' (a ++ "/" ++ b)).filter (fun s => s ≠ "" && s ≠ ".")
  let out := resolveDots [] segs
  if out.isEmpty then "." else joinSlash out

/-- Model of `path.posix.dirname` for the slash-normalized relative paths
produced by file enumeration (no trailing slashes). -/
def dirname (p : String) : String :=
  let parts := splitChar '/' p
  match parts with
  | [] => "."
  | [_] => "."
  | _ =>
    let d := joinSlash parts.dropLast
    if d = "" then "/" else d

/-- Index just after the last occurrence of `c`, if any. -/
def lastIdxOf (c : Char) : List Char → Option Nat
  | [] => none
  | x :: xs =>
    match lastIdxOf c xs with
    | some i => some (i + 1)
    | none => if x = c then some 0 else none

/-- Model of `path.extname`: the suffix of the basename from its last dot,
empty when the only dot is the leading character (dotfiles). -/
def extname (p : String) : String :=
  let base := ((splitChar '/' p).getLast?).getD p
  match lastIdxOf '.' base.data with
  | none => ""
  | some 0 => ""
  | some i => String.mk (base.data.drop i)

/-! ### Dependency graph (src/analyzer/dependencies.ts) -/

/-- Node of the file dependency graph (`{ id: string }`). -/
structure GraphNode where
  id : String
  deriving DecidableEq, Repr

/-- Edge of the file dependency graph (`{ source, target }`). -/
structure GraphLink where
  source : String
  target : String
  deriving DecidableEq, Repr

/-- `DependencyGraph` from src/types.ts. -/
structure DependencyGraph where
  nodes : List GraphNode
  links : List GraphLink
  deriving DecidableEq, Repr

/-- `isRelativeImport` from dependencies.ts. -/
def isRelativeImport (source : String) : Bool :=
  strStartsWith source "." || strStartsWith source "/"

/-- `getPackageName` from dependencies.ts. -/
def getPackageName (source : String) : String :=
  if strStartsWith source "@" then
    joinSlash ((splitChar '/' source).take 2)
  else
    ((splitChar '/' source).headD "")

/-- The fixed probe-suffix order of the resolver in `analyzeFileDependencies`. -/
def RESOLUTION_EXTENSIONS : List String :=
  ["", ".ts", ".tsx", ".js", ".jsx", "/index.ts", "/index.tsx", "/index.js", "/index.jsx"]

/-- Model of `candidate.replace(/\.js$/, '.ts')`. -/
def replaceJsWithTs (s : String) : String :=
  if strEndsWith s ".js" then strDropRight s 3 ++ ".ts" else s

/-- The probe loop of `analyzeFileDependencies`: for each suffix in order,
the candidate and its `.js`→`.ts` variant are looked up together with a
single `normalizedFiles.find(f => f === candidate || f === candidateAlt)`,
and the loop breaks at the first suffix producing a match. -/
def resolveLoop (normalizedFiles : List String) (resolved : String) :
    List String → Option String
  | [] => none
  | ext :: rest =>
    let candidate := replaceBackslashes (resolved ++ ext)
    let candidateAlt := replaceBackslashes (replaceJsWithTs candidate)
    match normalizedFiles.find? (fun f => f = candidate || f = candidateAlt) with
    | some m => some m
    | none => resolveLoop normalizedFiles resolved rest

/-- Resolution of one relative specifier from one importing file:
`path.join(path.dirname(file), importSource)` followed by the probe loop. -/
def resolveRelativeImport (files : List String) (file importSource : String) :
    Option String :=
  let normalizedFiles := files.map replaceBackslashes
  let resolved := replaceBackslashes (pathJoin (dirname file) importSource)
  resolveLoop normalizedFiles resolved RESOLUTION_EXTENSIONS

/-- The untruncated link list of `analyzeFileDependencies`.  `importsOf`
stands for `extractImports` applied to the file's text; a file whose read
or parse fails contributes `[]` (the code skips it and keeps going). -/
def allLinks (files : List String) (importsOf : String → List String) :
    List GraphLink :=
  files.flatMap (fun file =>
    (importsOf file).filterMap (fun importSource =>
      if isRelativeImport importSource then
        match resolveRelativeImport files file importSource with
        | some m => some { source := replaceBackslashes file, target := m }
        | none => none
      else none))

/-- `analyzeFileDependencies` from dependencies.ts: nodes are the enumerated
files (normalized), links the resolved relative imports, each truncated by
`slice` to the first 1000 / 2000 entries. -/
def analyzeFileDependencies (files : List String) (importsOf : String → List String) :
    DependencyGraph :=
  { nodes := (files.map (fun f => GraphNode.mk (replaceBackslashes f))).take 1000
    links := (allLinks files importsOf).take 2000 }

/-! ### Package usage classification (analyzePackageDeps in dependencies.ts) -/

/-- One `outdated` entry (`{ name, current, latest }`). -/
structure OutdatedEntry where
  name : String
  current : String
  latest : String
  deriving DecidableEq, Repr

/-- `PackageDependencies` from src/types.ts; the `Record<string,string>`
maps are association lists in manifest key order. -/
structure PackageDependencies where
  dependencies : List (String × String)
  devDependencies : List (String × String)
  used : List String
  unused : List String
  outdated : List OutdatedEntry
  suggestions : List String
  deriving DecidableEq, Repr

/-- The parsed `package.json`: `pkg.dependencies || {}` and
`pkg.devDependencies || {}` (an absent section is the empty map). -/
structure PackageManifest where
  dependencies : List (String × String)
  devDependencies : List (String × String)
  deriving DecidableEq, Repr

/-- State of the manifest collaborator: no `package.json` on disk, a file
that `fs.readJson` fails on (the surrounding `catch`), or parsed contents. -/
inductive ManifestInput where
  | missing
  | unreadable
  | ok (pkg : PackageManifest)

/-- The all-empty `defaultResult` of `analyzePackageDeps`. -/
def defaultPackageResult : PackageDependencies :=
  { dependencies := [], devDependencies := [], used := [], unused := []
    outdated := [], suggestions := [] }

/-- Association-list lookup (JS object property access). -/
def lookupDep (l : List (String × String)) (k : String) : Option String :=
  (l.find? (fun p => p.1 = k)).map Prod.snd

/-- The object spread `{ ...dependencies, ...devDependencies }`: key order is
the dependency keys followed by the new devDependency keys, and a
devDependency value overrides the dependency value for a shared key. -/
def mergeDeps (deps dev : List (String × String)) : List (String × String) :=
  deps.map (fun p => (p.1, (lookupDep dev p.1).getD p.2))
    ++ dev.filter (fun p => lookupDep deps p.1 = none)

/-- The `BUILD_TIME_PACKAGES` set literal (it contains the literal entry
`"@types/"` in addition to the prefix test in `isBuildTimeDep`). -/
def BUILD_TIME_PACKAGES : List String :=
  ["typescript", "@types/", "eslint", "prettier",
   "ts-node", "tsx", "jest", "mocha", "vitest",
   "webpack", "vite", "rollup", "esbuild", "turbo"]

/-- `isBuildTimeDep` from dependencies.ts. -/
def isBuildTimeDep (dep : String) : Bool :=
  BUILD_TIME_PACKAGES.contains dep || strStartsWith dep "@types/"

/-- `Set.prototype.add`: insertion-ordered, membership-deduplicated. -/
def insertIfAbsent (l : List String) (x : String) : List String :=
  if l.contains x then l else l ++ [x]

/-- Inner loop of the `usedPackages` collection: one file's import list. -/
def collectUsedInFile (allDepNames : List String) (acc : List String) :
    List String → List String
  | [] => acc
  | source :: rest =>
    if isRelativeImport source then collectUsedInFile allDepNames acc rest
    else
      let pkgName := getPackageName source
      if allDepNames.contains pkgName then
        collectUsedInFile allDepNames (insertIfAbsent acc pkgName) rest
      else collectUsedInFile allDepNames acc rest

/-- Outer loop of the `usedPackages` collection, over the file list. -/
def collectUsedAux (allDepNames : List String) (importsOf : String → List String) :
    List String → List String → List String
  | acc, [] => acc
  | acc, f :: fs =>
    collectUsedAux allDepNames importsOf (collectUsedInFile allDepNames acc (importsOf f)) fs

/-- The `usedPackages` set of `analyzePackageDeps`: every external import's
bare package name that is a declared dependency name, across all files. -/
def collectUsedPackages (allDepNames : List String) (importsOf : String → List String)
    (files : List String) : List String :=
  collectUsedAux allDepNames importsOf [] files

/-- `analyzePackageDeps` from dependencies.ts, with the manifest read and the
per-file import extraction passed in as collaborator inputs. -/
def analyzePackageDeps (manifest : ManifestInput) (files : List String)
    (importsOf : String → List String) : PackageDependencies :=
  match manifest with
  | .missing => defaultPackageResult
  | .unreadable => defaultPackageResult
  | .ok pkg =>
    let dependencies := pkg.dependencies
    let devDependencies := pkg.devDependencies
    let allDeps := mergeDeps dependencies devDependencies
    let allDepNames := allDeps.map Prod.fst
    let usedPackages := collectUsedPackages allDepNames importsOf files
    let used := allDepNames.filter (fun dep => usedPackages.contains dep)
    let unused := allDepNames.filter (fun dep =>
      !usedPackages.contains dep && !isBuildTimeDep dep)
    let outdated := (allDeps.filter (fun p =>
        p.2 ≠ "" && !strStartsWith p.2 "^" && !strStartsWith p.2 "~" && !strStartsWith p.2 "*")).map
      (fun p => OutdatedEntry.mk p.1 p.2 "check npm registry")
    let suggestions :=
      (if allDepNames.contains "typescript" then []
       else ["typescript - Add type safety to your project"])
      ++ (if allDepNames.contains "eslint" then []
          else ["eslint - Add code quality linting"])
      ++ (if allDepNames.contains "prettier" then []
          else ["prettier - Add consistent code formatting"])
    { dependencies := dependencies, devDependencies := devDependencies
      used := used, unused := unused, outdated := outdated, suggestions := suggestions }

/-! ### Security pattern engine (src/analyzer/security.ts)

The Babel parser is the external collaborator; its output is modelled by
the `JsNode` tree below.  Only the node kinds inspected by the scanner are
distinguished; everything else is `other`.  As in Babel/ESTree,
`new F(...)` is a `NewExpression` — a node kind distinct from
`CallExpression` — and `@babel/traverse` fires a visitor only on nodes of
the exact kind (or registered alias) it is keyed on; there is no alias
from `NewExpression` to `CallExpression`. -/

/-- Babel AST nodes, restricted to the shapes the scanner looks at.
`line` holds `node.loc?.start.line` where the scanner reads it.  Following
the spec's parser interface (`visit(Tree, kindFilter) -> sequence of
Node`), a parsed file is handed to the scanner as the sequence of nodes
the traversal visits, each node still carrying the subterm structure the
pattern checks inspect. -/
inductive JsNode where
  | identifier (name : String)
  | stringLit (value : String)
  | member (obj : JsNode) (prop : JsNode)
  | callExpr (callee : JsNode) (args : List JsNode) (line : Option Nat)
  | newExpr (callee : JsNode) (args : List JsNode) (line : Option Nat)
  | assignExpr (left : JsNode) (right : JsNode) (line : Option Nat)
  | jsxAttr (name : String) (line : Option Nat)
  | exprStmt (e : JsNode)
  | program (body : List JsNode)
  | other (children : List JsNode)

/-- `nodePath.node.callee` — both call and new expressions carry a callee. -/
def calleeOf : JsNode → Option JsNode
  | .callExpr c _ _ => some c
  | .newExpr c _ _ => some c
  | _ => none

/-- `nodePath.node.loc?.start.line` for the nodes the scanner reads it on. -/
def lineOf : JsNode → Option Nat
  | .callExpr _ _ l => l
  | .newExpr _ _ l => l
  | .assignExpr _ _ l => l
  | .jsxAttr _ l => l
  | _ => none

/-- `SecurityVulnerability` from src/types.ts.  `severity` is a string at
run time: the declared union `low | medium | high | critical` is a
TypeScript-only annotation that the legacy audit path does not enforce. -/
structure SecurityVulnerability where
  name : String
  severity : String
  description : String
  source : String
  file : Option String := none
  line : Option Nat := none
  category : Option String := none
  deriving DecidableEq, Repr

/-- One entry of `DANGEROUS_PATTERNS`. -/
structure CodePattern where
  name : String
  category : String
  severity : String
  description : String
  check : JsNode → Bool

/-- Check of the `eval() Usage` pattern. -/
def evalUsageCheck (n : JsNode) : Bool :=
  match calleeOf n with
  | some (.identifier nm) => nm = "eval"
  | _ => false

/-- Check of the `Function() Constructor` pattern: a callee that is an
identifier named `Function` (it does not itself care whether the node is a
call or a new expression — that restriction comes from the visitor). -/
def functionConstructorCheck (n : JsNode) : Bool :=
  match calleeOf n with
  | some (.identifier nm) => nm = "Function"
  | _ => false

/-- Check of the `child_process exec()` pattern. -/
def execCallCheck (n : JsNode) : Bool :=
  match calleeOf n with
  | some (.identifier nm) => nm = "exec" || nm = "execSync"
  | some (.member _ (.identifier nm)) => nm = "exec" || nm = "execSync"
  | _ => false

/-- Check of the `innerHTML Assignment` pattern. -/
def innerHTMLCheck (n : JsNode) : Bool :=
  match n with
  | .assignExpr (.member _ (.identifier nm)) _ _ => nm = "innerHTML"
  | _ => false

/-- Check of the `dangerouslySetInnerHTML` pattern. -/
def dangerouslySetInnerHTMLCheck (n : JsNode) : Bool :=
  match n with
  | .jsxAttr nm _ => nm = "dangerouslySetInnerHTML"
  | _ => false

/-- Check of the `document.write()` pattern. -/
def documentWriteCheck (n : JsNode) : Bool :=
  match calleeOf n with
  | some (.member (.identifier ob) (.identifier pr)) => ob = "document" && pr = "write"
  | _ => false

/-- The `DANGEROUS_PATTERNS` catalog, in source order. -/
def DANGEROUS_PATTERNS : List CodePattern :=
  [{ name := "eval() Usage", category := "Code Injection", severity := "critical"
     description := "eval() executes arbitrary code and is a major injection risk. Use safer alternatives like JSON.parse() or Function constructors."
     check := evalUsageCheck },
   { name := "Function() Constructor", category := "Code Injection", severity := "high"
     description := "new Function() dynamically creates functions from strings, similar to eval(). Avoid using user input."
     check := functionConstructorCheck },
   { name := "child_process exec()", category := "Command Injection", severity := "high"
     description := "exec() runs shell commands and is vulnerable to command injection. Prefer execFile() with explicit arguments."
     check := execCallCheck },
   { name := "innerHTML Assignment", category := "Cross-Site Scripting (XSS)", severity := "medium"
     description := "innerHTML injects raw HTML and can lead to XSS. Use textContent or a sanitization library instead."
     check := innerHTMLCheck },
   { name := "dangerouslySetInnerHTML", category := "Cross-Site Scripting (XSS)", severity := "medium"
     description := "dangerouslySetInnerHTML renders raw HTML in React components. Ensure content is properly sanitized."
     check := dangerouslySetInnerHTMLCheck },
   { name := "document.write()", category := "Cross-Site Scripting (XSS)", severity := "medium"
     description := "document.write() is a legacy DOM method that can overwrite the entire page and is XSS-prone."
     check := documentWriteCheck }]

/-- Build one code-scan finding for a matched pattern. -/
def mkCodeScanFinding (p : CodePattern) (relativePath : String) (line : Option Nat) :
    SecurityVulnerability :=
  { name := p.name, severity := p.severity, description := p.description
    source := "code-scan", file := some relativePath, line := line
    category := some p.category }

/-- The visitor dispatch of `scanFileForVulnerabilities`: only
`CallExpression`, `AssignmentExpression` and `JSXAttribute` visitors are
registered, so every other node kind (in particular `NewExpression`)
produces nothing. -/
def findingsForNode (relativePath : String) (n : JsNode) : List SecurityVulnerability :=
  match n with
  | .callExpr _ _ _ =>
    (DANGEROUS_PATTERNS.filter (fun p =>
        p.name ≠ "innerHTML Assignment" && p.name ≠ "dangerouslySetInnerHTML")).filterMap
      (fun p => if p.check n then some (mkCodeScanFinding p relativePath (lineOf n)) else none)
  | .assignExpr _ _ _ =>
    match DANGEROUS_PATTERNS.find? (fun p => p.name = "innerHTML Assignment") with
    | some p => if p.check n then [mkCodeScanFinding p relativePath (lineOf n)] else []
    | none => []
  | .jsxAttr _ _ =>
    match DANGEROUS_PATTERNS.find? (fun p => p.name = "dangerouslySetInnerHTML") with
    | some p => if p.check n then [mkCodeScanFinding p relativePath (lineOf n)] else []
    | none => []
  | _ => []

/-- The structural (AST) half of `scanFileForVulnerabilities`: the visitor
dispatch applied to every node the traversal visits, in visit order. -/
def scanAst (relativePath : String) (visited : List JsNode) : List SecurityVulnerability :=
  visited.flatMap (findingsForNode relativePath)

/-! #### Secret patterns (line scanning)

Each entry of `SECRET_PATTERNS` is a regular expression of the shape
`KEYWORDS \s* [:=] \s* ['"] BODY{n,} ['"]` with the `i` flag, where
`KEYWORDS` is a small alternation of literals and `BODY` a character class
that never contains a quote character.  `RegExp.prototype.test` asks
whether a match exists anywhere in the line; because the body class
excludes quotes, that is equivalent to the direct scan implemented here:
at some start position a keyword matches case-insensitively, then optional
whitespace, `:` or `=`, optional whitespace, a quote, at least `n` body
characters, and a quote. -/

/-- Strip a keyword case-insensitively from the front of a char list. -/
def stripKeyCI : List Char → List Char → Option (List Char)
  | cs, [] => some cs
  | [], _ :: _ => none
  | c :: cs, k :: ks => if c.toLower = k.toLower then stripKeyCI cs ks else none

/-- A single-quote or double-quote character (the `['"]` class). -/
def isQuoteChar (c : Char) : Bool :=
  c = '"' || c = Char.ofNat 39

/-- Match `KEY \s* [:=] \s* ['"] BODY{minLen,} ['"]` at the start of `cs`. -/
def matchSecretAt (keys : List String) (body : Char → Bool) (minLen : Nat)
    (cs : List Char) : Bool :=
  keys.any (fun k =>
    match stripKeyCI cs k.data with
    | none => false
    | some r1 =>
      match r1.dropWhile isWsChar with
      | [] => false
      | c :: r3 =>
        if c = ':' || c = '=' then
          match r3.dropWhile isWsChar with
          | [] => false
          | q :: r5 =>
            if isQuoteChar q then
              let run := r5.takeWhile body
              decide (minLen ≤ run.length) &&
                (match r5.drop run.length with
                 | c2 :: _ => isQuoteChar c2
                 | [] => false)
            else false
        else false)

/-- `pattern.test(line)`: a match exists at some start position. -/
def secretTest (keys : List String) (body : Char → Bool) (minLen : Nat)
    (line : String) : Bool :=
  line.data.tails.any (matchSecretAt keys body minLen)

/-- The `[A-Za-z0-9_\-]` class. -/
def isKeyBodyChar (c : Char) : Bool :=
  c.isAlpha || c.isDigit || c = '_' || c = '-'

/-- The `[^'"]` class. -/
def isNotQuoteChar (c : Char) : Bool :=
  !isQuoteChar c

/-- The `[A-Za-z0-9/+=]` class. -/
def isAwsBodyChar (c : Char) : Bool :=
  c.isAlpha || c.isDigit || c = '/' || c = '+' || c = '='

/-- The `[A-Za-z0-9_\-.]` class. -/
def isTokenBodyChar (c : Char) : Bool :=
  c.isAlpha || c.isDigit || c = '_' || c = '-' || c = '.'

/-- One entry of `SECRET_PATTERNS`. -/
structure SecretPattern where
  name : String
  severity : String
  test : String → Bool

/-- The `SECRET_PATTERNS` catalog, in source order.  The keyword
alternations spell out the optional `[_-]` of `api[_-]?key` and
`private[_-]?key`. -/
def SECRET_PATTERNS : List SecretPattern :=
  [{ name := "Hardcoded API Key", severity := "high"
     test := secretTest ["api_key", "api-key", "apikey"] isKeyBodyChar 16 },
   { name := "Hardcoded Secret/Password", severity := "critical"
     test := secretTest ["secret", "password", "passwd", "pwd"] isNotQuoteChar 8 },
   { name := "AWS Credentials", severity := "critical"
     test := secretTest ["aws_access_key_id", "aws_secret_access_key"] isAwsBodyChar 16 },
   { name := "Private Key Exposure", severity := "critical"
     test := secretTest ["private_key", "private-key", "privatekey"] isNotQuoteChar 20 },
   { name := "Hardcoded Token", severity := "high"
     test := secretTest ["token"] isTokenBodyChar 20 }]

/-- The comment-line filter of the secret scan: the trimmed line starts with
`//`, `*` or `/*`. -/
def isCommentLine (line : String) : Bool :=
  let trimmed := strTrim line
  strStartsWith trimmed "//" || strStartsWith trimmed "*" || strStartsWith trimmed "/*"

/-- Build one secret finding; `i` is the 0-based line index, the report
carries `i + 1`. -/
def mkSecretFinding (p : SecretPattern) (relativePath : String) (i : Nat) :
    SecurityVulnerability :=
  { name := p.name, severity := p.severity
    description := "Potential " ++ p.name.toLower ++ " detected. Never commit secrets to source code. Use environment variables instead."
    source := "code-scan", file := some relativePath, line := some (i + 1)
    category := some "Sensitive Data Exposure" }

/-- The inner pattern loop over one line: push the first matching pattern's
finding and `break` (at most one finding per line). -/
def scanLineLoop (relativePath : String) (i : Nat) (line : String) :
    List SecretPattern → List SecurityVulnerability
  | [] => []
  | p :: rest =>
    if p.test line then [mkSecretFinding p relativePath i]
    else scanLineLoop relativePath i line rest

/-- One line of the secret scan: comment lines are skipped (`continue`),
other lines run the pattern loop. -/
def scanLineForSecrets (relativePath : String) (i : Nat) (line : String) :
    List SecurityVulnerability :=
  if isCommentLine line then [] else scanLineLoop relativePath i line SECRET_PATTERNS

/-- The line-based secret detection of `scanFileForVulnerabilities`:
`content.split('\n')`, scanned line by line. -/
def scanSecrets (relativePath : String) (content : String) : List SecurityVulnerability :=
  ((splitChar '\n' content).enum).flatMap (fun p => scanLineForSecrets relativePath p.1 p.2)

/-- The JS/TS extension gate shared by `scanFileForVulnerabilities` and the
file loop of `analyzeSecurity`. -/
def JS_EXTENSIONS : List String := [".js", ".jsx", ".ts", ".tsx"]

/-- `scanFileForVulnerabilities`: non-JS/TS files return `[]` before any
scanning; for JS/TS files the structural findings (empty when the parse
failed, modelled by `ast = none`) are followed by the line-based secret
findings. -/
def scanFileForVulnerabilities (filePath : String) (ast : Option (List JsNode))
    (content : String) (relativePath : String) : List SecurityVulnerability :=
  if !(JS_EXTENSIONS.contains (extname filePath)) then []
  else
    (match ast with
     | some visited => scanAst relativePath visited
     | none => []) ++ scanSecrets relativePath content

/-! #### npm audit normalization (`runNpmAudit`) -/

/-- An element of a modern audit entry's `via` array: an object (with
optional `title` and a `name`) or a plain string (filtered out by the
`typeof v === 'object'` test). -/
inductive ViaItem where
  | obj (title : Option String) (name : String)
  | plain (s : String)

/-- A modern audit entry's `via` field: an array, or anything else
(stringified by `String(vuln.via)`). -/
inductive AuditVia where
  | arr (items : List ViaItem)
  | str (s : String)

/-- The `title || name` coalescing (`||` treats the empty string as falsy). -/
def viaItemText : ViaItem → Option String
  | .obj t nm => some (match t with
    | some s => if s = "" then nm else s
    | none => nm)
  | .plain _ => none

/-- Join a list of strings with `", "` (`Array.prototype.join(', ')`). -/
def joinCommaSpace : List String → String
  | [] => ""
  | [x] => x
  | x :: y :: rest => x ++ ", " ++ joinCommaSpace (y :: rest)

/-- The `via` description text of a modern audit entry. -/
def viaText : AuditVia → String
  | .arr items => joinCommaSpace (items.filterMap viaItemText)
  | .str s => s

/-- One value of the modern (npm v7+) `vulnerabilities` map. -/
structure AuditVulnInfo where
  severity : String
  range : Option String
  via : AuditVia

/-- One entry of the legacy (npm v6) `advisories` map. -/
structure Advisory where
  module_name : String
  title : String
  overview : Option String
  severity : String

/-- The severity whitelist of the modern normalization path. -/
def VALID_SEVERITIES : List String := ["low", "medium", "high", "critical"]

/-- Normalization of one modern audit entry: the severity is validated
against the whitelist (falling back to `low`), the description is the `via`
text or a `Vulnerable version:` fallback (`vuln.range` prints as
`undefined` when absent, as template interpolation does). -/
def normalizeModernEntry (nm : String) (v : AuditVulnInfo) : SecurityVulnerability :=
  let viaStr := viaText v.via
  { name := nm ++ " (" ++ v.range.getD "" ++ ")"
    severity := if VALID_SEVERITIES.contains v.severity then v.severity else "low"
    description := if viaStr = "" then "Vulnerable version: " ++ v.range.getD "undefined" else viaStr
    source := "npm-audit", category := some "Dependency Vulnerability" }

/-- Normalization of one legacy advisory: `advisory.severity` is copied
verbatim — this path has no whitelist. -/
def normalizeLegacyEntry (a : Advisory) : SecurityVulnerability :=
  { name := a.module_name ++ " – " ++ a.title
    severity := a.severity
    description := (match a.overview with
      | some s => if s = "" then a.title else s
      | none => a.title)
    source := "npm-audit", category := some "Dependency Vulnerability" }

/-- The parsed shape of `npm audit --json` output. -/
inductive AuditJson where
  | modern (vulns : List (String × AuditVulnInfo))
  | legacy (advisories : List Advisory)
  | neither

/-- The observable outcome of the audit collaborator: manifest or lockfile
absent; `execAsync` succeeded (with `JSON.parse` result, `none` on a parse
error, which lands in the catch with no `e.stdout`); or `execAsync` threw
(with the `JSON.parse` result of `e.stdout`, `none` when absent or
unparsable). -/
inductive AuditOutcome where
  | noManifest
  | execOk (parsed : Option AuditJson)
  | execFail (stdoutParsed : Option AuditJson)

/-- `runNpmAudit` from security.ts.  The catch path only handles the modern
`vulnerabilities` shape. -/
def runNpmAudit : AuditOutcome → List SecurityVulnerability
  | .noManifest => []
  | .execOk none => []
  | .execOk (some (.modern vs)) => vs.map (fun p => normalizeModernEntry p.1 p.2)
  | .execOk (some (.legacy advs)) => advs.map normalizeLegacyEntry
  | .execOk (some .neither) => []
  | .execFail none => []
  | .execFail (some (.modern vs)) => vs.map (fun p => normalizeModernEntry p.1 p.2)
  | .execFail (some (.legacy _)) => []
  | .execFail (some .neither) => []

/-- The `severityOrder` ranking of the final sort (unknown severities rank
as `none`: the comparator then evaluates to `NaN`, which `sort` treats as
equality). -/
def severityRank (s : String) : Option Nat :=
  if s = "critical" then some 0
  else if s = "high" then some 1
  else if s = "medium" then some 2
  else if s = "low" then some 3
  else none

/-- The comparator of the final stable sort as a `le` relation. -/
def severityLe (a b : SecurityVulnerability) : Bool :=
  match severityRank a.severity, severityRank b.severity with
  | some x, some y => x ≤ y
  | _, _ => true

/-- Insert `x` after every already-placed element that compares `le` to it
(equal elements keep their earlier position, preserving stability). -/
def insertSorted (le : α → α → Bool) (x : α) : List α → List α
  | [] => [x]
  | y :: ys => if le y x then y :: insertSorted le x ys else x :: y :: ys

/-- Stable sort by a boolean `le` comparator, modelling the ES2019-stable
`Array.prototype.sort` used for the final severity ordering. -/
def stableSortBy (le : α → α → Bool) (l : List α) : List α :=
  l.foldl (fun acc x => insertSorted le x acc) []

/-- `analyzeSecurity` from security.ts: audit findings, then per-file scans
over JS/TS files (unreadable files skipped), stably sorted by severity
rank. -/
def analyzeSecurity (files : List String) (astOf : String → Option (List JsNode))
    (contentOf : String → Option String) (audit : AuditOutcome) :
    List SecurityVulnerability :=
  let auditVulns := runNpmAudit audit
  let codeVulns := files.flatMap (fun file =>
    if !(JS_EXTENSIONS.contains (extname file)) then []
    else
      match contentOf file with
      | none => []
      | some content =>
        scanFileForVulnerabilities file (astOf file) content (replaceBackslashes file))
  stableSortBy severityLe (auditVulns ++ codeVulns)

/-! ### Health scorer (calculateHealthScore in src/analyzer/project.ts)

The score starts at 100 and the code subtracts each deduction in turn, so
it equals 100 minus the sum of the individual deductions, clamped at the
end by `Math.floor(Math.max(0, Math.min(100, score)))`; every intermediate
value is an integer, so the floor is the identity.  The two divisions
(coupling ratio, comment ratio) are exact here (ℚ); in JS they are IEEE
doubles, which agree on all inputs of realistic size. -/

/-- The numeric aggregate fields of `ProjectStats` that the scorer reads
(`languages` and `fileList` are not consulted). -/
structure ProjectStats where
  totalFiles : Nat
  totalLOC : Nat
  totalCodeLines : Nat
  totalCommentLines : Nat
  totalBlankLines : Nat
  deriving DecidableEq, Repr

/-- A git hotspot (`{ file, commits }`), an external collaborator input. -/
structure Hotspot where
  file : String
  commits : Nat
  deriving DecidableEq, Repr

/-- `if (stats.totalFiles > 200) score -= 10`. -/
def filesDeduction (stats : ProjectStats) : Int :=
  if 200 < stats.totalFiles then 10 else 0

/-- `if (stats.totalLOC > 10000) score -= 10`. -/
def locDeduction (stats : ProjectStats) : Int :=
  if 10000 < stats.totalLOC then 10 else 0

/-- `score -= Math.min(activeHotspots * 3, 15)` where `activeHotspots`
counts hotspots with more than 10 commits. -/
def hotspotDeduction (hotspots : List Hotspot) : Int :=
  (min ((hotspots.filter (fun h => 10 < h.commits)).length * 3) 15 : Nat)

/-- `dependencies.links.length / (dependencies.nodes.length || 1)`. -/
def couplingRatioOf (deps : DependencyGraph) : ℚ :=
  (deps.links.length : ℚ) /
    ((if deps.nodes.length = 0 then 1 else deps.nodes.length : Nat) : ℚ)

/-- `if (couplingRatio > 3) score -= 15`. -/
def couplingDeduction (deps : DependencyGraph) : Int :=
  if 3 < couplingRatioOf deps then 15 else 0

/-- `score -= Math.min(unusedDepsCount * 2, 15)`. -/
def unusedDeduction (unusedDepsCount : Nat) : Int :=
  (min (unusedDepsCount * 2) 15 : Nat)

/-- `Math.min(criticalCount*10 + highCount*5 + mediumCount*2, 30)`. -/
def securityPenaltyOf (security : List SecurityVulnerability) : Nat :=
  let criticalCount := (security.filter (fun v => v.severity = "critical")).length
  let highCount := (security.filter (fun v => v.severity = "high")).length
  let mediumCount := (security.filter (fun v => v.severity = "medium")).length
  min (criticalCount * 10 + highCount * 5 + mediumCount * 2) 30

/-- `if (stats.totalCodeLines > 0) { if (commentRatio < 0.05) score -= 5 }`. -/
def commentDeduction (stats : ProjectStats) : Int :=
  if 0 < stats.totalCodeLines ∧
      (stats.totalCommentLines : ℚ) / (stats.totalCodeLines : ℚ) < 1 / 20 then 5
  else 0

/-- `calculateHealthScore` from project.ts. -/
def calculateHealthScore (stats : ProjectStats) (hotspots : List Hotspot)
    (dependencies : DependencyGraph) (unusedDepsCount : Nat)
    (security : List SecurityVulnerability) : Int :=
  max 0 (min 100
    (100 - filesDeduction stats - locDeduction stats - hotspotDeduction hotspots
      - couplingDeduction dependencies - unusedDeduction unusedDepsCount
      - (securityPenaltyOf security : Int) - commentDeduction stats))

/-! ### Helper lemmas -/

/-- The coupling test `links / (nodes or 1) > 3` over ℚ is the integer test
`3 * (nodes or 1) < links`. -/
theorem couplingDeduction_eq (deps : DependencyGraph) :
    couplingDeduction deps =
      if 3 * (if deps.nodes.length = 0 then 1 else deps.nodes.length) < deps.links.length
      then 15 else 0 := by
  unfold couplingDeduction couplingRatioOf
  set D : Nat := if deps.nodes.length = 0 then 1 else deps.nodes.length with hD
  have hDpos : 0 < D := by
    rw [hD]; split
    · exact Nat.one_pos
    · omega
  have hQ : (0 : ℚ) < (D : ℚ) := by exact_mod_cast hDpos
  have hcast : ((3 : ℚ) * (D : ℚ) < (deps.links.length : ℚ)) ↔ 3 * D < deps.links.length := by
    constructor
    · intro h; exact_mod_cast h
    · intro h; exact_mod_cast h
  have hiff : ((3 : ℚ) < (deps.links.length : ℚ) / (D : ℚ)) ↔ 3 * D < deps.links.length := by
    rw [lt_div_iff₀ hQ]
    exact hcast
  simp only [hiff]

/-- The comment-ratio test `comment/code < 0.05` (evaluated only when
`code > 0`) is the integer test `20 * comment < code`. -/
theorem commentDeduction_eq (stats : ProjectStats) :
    commentDeduction stats =
      if 0 < stats.totalCodeLines ∧ 20 * stats.totalCommentLines < stats.totalCodeLines
      then 5 else 0 := by
  unfold commentDeduction
  by_cases hc : 0 < stats.totalCodeLines
  · have hQ : (0 : ℚ) < (stats.totalCodeLines : ℚ) := by exact_mod_cast hc
    have hiff : (stats.totalCommentLines : ℚ) / (stats.totalCodeLines : ℚ) < 1 / 20 ↔
        20 * stats.totalCommentLines < stats.totalCodeLines := by
      rw [div_lt_div_iff₀ hQ (by norm_num : (0 : ℚ) < 20)]
      constructor
      · intro h
        have h2 : (20 : ℚ) * stats.totalCommentLines < stats.totalCodeLines := by linarith
        exact_mod_cast h2
      · intro h
        have h2 : (20 : ℚ) * stats.totalCommentLines < stats.totalCodeLines := by exact_mod_cast h
        linarith
    simp only [hiff]
  · simp [hc]

/-- Whatever the probe loop returns came out of the file list it searched. -/
theorem resolveLoop_mem (normalizedFiles : List String) (resolved : String)
    (exts : List String) (m : String)
    (h : resolveLoop normalizedFiles resolved exts = some m) :
    m ∈ normalizedFiles := by
  induction exts with
  | nil => simp [resolveLoop] at h
  | cons e rest ih =>
    rw [resolveLoop] at h
    rcases hfind : normalizedFiles.find? (fun f =>
        f = replaceBackslashes (resolved ++ e) ||
        f = replaceBackslashes (replaceJsWithTs (replaceBackslashes (resolved ++ e)))) with _ | found
    · rw [hfind] at h
      exact ih h
    · rw [hfind] at h
      cases h
      exact List.mem_of_find?_eq_some hfind

/-- Every resolution result is a member of the normalized file list. -/
theorem resolveRelativeImport_mem (files : List String) (file importSource m : String)
    (h : resolveRelativeImport files file importSource = some m) :
    m ∈ files.map replaceBackslashes := by
  exact resolveLoop_mem _ _ _ _ h

/-! ### Claim theorems -/

/-- C2 counterexample: with project files enumerated as
`["a.ts", "a.js", "b.ts"]`, the exact-looking specifier `./a.js` from the
sibling `b.ts` resolves to `a.ts`, not to the exact match `a.js`: in the
very first probe step the candidate `a.js` and its `.js`→`.ts` variant
`a.ts` are looked up with one `find` over the file list, and `a.ts` is
enumerated first.  This falsifies the claim that `./a.js` resolves to the
exact match regardless of file-enumeration order. -/
theorem c2_exact_match_counterexample :
    resolveRelativeImport ["a.ts", "a.js", "b.ts"] "b.ts" "./a.js" = some "a.ts" ∧
    resolveRelativeImport ["a.ts", "a.js", "b.ts"] "b.ts" "./a.js" ≠ some "a.js" := by
  constructor
  · decide
  · decide

/-- C2 (amended): across probe steps the fixed priority order decides —
`./a` with both `a.ts` and `a/index.ts` present resolves to `a.ts`, and
`./a` with `a.js` and `a.tsx` present resolves to `a.tsx` (probed before
`.js`); but within one probe step the candidate and its `.js`→`.ts`
variant are matched together by scanning the file list in enumeration
order, so `./a.js` with both `a.js` and `a.ts` present resolves to
whichever of the two was enumerated first.  Any result is a member of the
project's normalized file set. -/
theorem c2_resolution_priority_order :
    (resolveRelativeImport ["a.ts", "a/index.ts", "b.ts"] "b.ts" "./a" = some "a.ts" ∧
     resolveRelativeImport ["a.ts", "a/index.ts", "b.ts"] "b.ts" "./a" ≠ some "a/index.ts") ∧
    (resolveRelativeImport ["a.js", "a.tsx", "b.ts"] "b.ts" "./a" = some "a.tsx") ∧
    (resolveRelativeImport ["a.js", "a.ts", "b.ts"] "b.ts" "./a.js" = some "a.js" ∧
     resolveRelativeImport ["a.ts", "a.js", "b.ts"] "b.ts" "./a.js" = some "a.ts") ∧
    (∀ (files : List String) (file importSource m : String),
      resolveRelativeImport files file importSource = some m →
      m ∈ files.map replaceBackslashes) := by
  refine ⟨⟨by decide, by decide⟩, by decide, ⟨by decide, by decide⟩, ?_⟩
  intro files file importSource m h
  exact resolveRelativeImport_mem files file importSource m h

/-- C2 witness for the amended theorem's general clause, at a concrete
resolution. -/
theorem c2_resolution_priority_order_witness :
    "a.ts" ∈ (["a.ts", "b.ts"].map replaceBackslashes) := by
  exact c2_resolution_priority_order.2.2.2 ["a.ts", "b.ts"] "b.ts" "./a" "a.ts" (by decide)

/-- C4 counterexample: the line `password = "supersecretvalue"` matches a
secret pattern, yet placed in the project file `creds.json` it produces no
finding at all: both the file loop of `analyzeSecurity` and the head of
`scanFileForVulnerabilities` skip every file whose extension is not one of
`.js`, `.jsx`, `.ts`, `.tsx`, and the skip happens before the secret scan.
This falsifies the claim that the secret scan runs on files of any
extension. -/
theorem c4_nonjs_secret_counterexample :
    (SECRET_PATTERNS.any (fun p => p.test "password = \"supersecretvalue\"")) = true ∧
    scanFileForVulnerabilities "creds.json" none "password = \"supersecretvalue\"" "creds.json" = [] ∧
    analyzeSecurity ["creds.json"] (fun _ => none)
      (fun _ => some "password = \"supersecretvalue\"") .noManifest = [] := by
  exact ⟨by decide, by decide, by decide⟩

/-- C4 (amended): the secret-pattern scan runs only on files with a JS/TS
extension; for those files it runs line by line independently of parse
success (a file whose parse failed still yields exactly its secret
findings), and every other file yields no findings of any kind. -/
theorem c4_secret_scan_extent :
    ∀ (filePath : String) (ast : Option (List JsNode)) (content relativePath : String),
    (JS_EXTENSIONS.contains (extname filePath) = false →
      scanFileForVulnerabilities filePath ast content relativePath = []) ∧
    (JS_EXTENSIONS.contains (extname filePath) = true →
      scanFileForVulnerabilities filePath none content relativePath =
        scanSecrets relativePath content) := by
  intro filePath ast content relativePath
  constructor
  · intro h
    unfold scanFileForVulnerabilities
    rw [h]
    simp
  · intro h
    unfold scanFileForVulnerabilities
    rw [h]
    simp

/-- C4 witness: a `.json` file with a live secret line yields nothing; a
`.ts` file with the same content and a failed parse yields exactly the
secret findings. -/
theorem c4_secret_scan_extent_witness :
    scanFileForVulnerabilities "creds.json" none "password = \"supersecretvalue\"" "creds.json" = [] ∧
    scanFileForVulnerabilities "creds.ts" none "password = \"supersecretvalue\"" "creds.ts" =
      scanSecrets "creds.ts" "password = \"supersecretvalue\"" := by
  constructor
  · exact (c4_secret_scan_extent "creds.json" none "password = \"supersecretvalue\"" "creds.json").1
      (by decide)
  · exact (c4_secret_scan_extent "creds.ts" none "password = \"supersecretvalue\"" "creds.ts").2
      (by decide)

/-- C7: the 15-point coupling deduction applies exactly when
`links / (nodes or 1) > 3`, i.e. when `3 * max(nodes, 1) < links`; with 10
nodes, 30 links leave the score at 100 while 31 links drop it to 85. -/
theorem c7_coupling_ratio_threshold :
    (∀ deps : DependencyGraph,
      couplingDeduction deps =
        if 3 * max deps.nodes.length 1 < deps.links.length then 15 else 0) ∧
    calculateHealthScore ⟨0, 0, 0, 0, 0⟩ []
      ⟨List.replicate 10 ⟨"n"⟩, List.replicate 30 ⟨"s", "t"⟩⟩ 0 [] = 100 ∧
    calculateHealthScore ⟨0, 0, 0, 0, 0⟩ []
      ⟨List.replicate 10 ⟨"n"⟩, List.replicate 31 ⟨"s", "t"⟩⟩ 0 [] = 85 := by
  refine ⟨?_, ?_, ?_⟩
  · intro deps
    rw [couplingDeduction_eq]
    have hmax : (if deps.nodes.length = 0 then 1 else deps.nodes.length) =
        max deps.nodes.length 1 := by
      rcases Nat.eq_zero_or_pos deps.nodes.length with h0 | hpos
      · simp [h0]
      · rw [if_neg (by omega)]
        omega
    rw [hmax]
  · simp [calculateHealthScore, couplingDeduction_eq, commentDeduction_eq,
      filesDeduction, locDeduction, hotspotDeduction, unusedDeduction, securityPenaltyOf]
  · simp [calculateHealthScore, couplingDeduction_eq, commentDeduction_eq,
      filesDeduction, locDeduction, hotspotDeduction, unusedDeduction, securityPenaltyOf]

/-- C8: the legacy (npm v6) audit normalization path copies
`advisory.severity` verbatim, so an advisory with severity `moderate` —
the severity npm v6 actually emits between `low` and `high` — produces a
finding whose severity is outside {low, medium, high, critical},
contradicting the declared `SecurityVulnerability` severity union; the
modern path, by contrast, validates every severity against the whitelist. -/
theorem c8_legacy_severity_escape :
    ((runNpmAudit (.execOk (some (.legacy
        [⟨"minimist", "Prototype Pollution", some "minimist before 1.2.2", "moderate"⟩])))).map
      (fun v => v.severity)) = ["moderate"] ∧
    VALID_SEVERITIES.contains "moderate" = false ∧
    (∀ (nm : String) (v : AuditVulnInfo),
      VALID_SEVERITIES.contains (normalizeModernEntry nm v).severity = true) := by
  refine ⟨by decide, by decide, ?_⟩
  intro nm v
  show VALID_SEVERITIES.contains
    (if VALID_SEVERITIES.contains v.severity then v.severity else "low") = true
  rcases h : VALID_SEVERITIES.contains v.severity with _ | _
  · simp
    decide
  · simpa using h

/-- C9: when the manifest is absent or unreadable the package classifier
returns the all-empty default result without failing, and an absent or
erroring audit tool (no lockfile, unparsable output, failed process with
unparsable stdout) yields the empty finding list. -/
theorem c9_collaborator_unavailable_defaults :
    (∀ (files : List String) (importsOf : String → List String),
      analyzePackageDeps .missing files importsOf = defaultPackageResult ∧
      analyzePackageDeps .unreadable files importsOf = defaultPackageResult) ∧
    defaultPackageResult =
      { dependencies := [], devDependencies := [], used := [], unused := []
        outdated := [], suggestions := [] } ∧
    runNpmAudit .noManifest = [] ∧
    runNpmAudit (.execOk none) = [] ∧
    runNpmAudit (.execFail none) = [] := by
  exact ⟨fun _ _ => ⟨rfl, rfl⟩, rfl, rfl, rfl, rfl⟩

/-- C10: a file containing `new Function("alert(1)")` produces no finding:
the expression parses as a `NewExpression`, and the scanner registers
visitors only for `CallExpression`, `AssignmentExpression` and
`JSXAttribute`, so the node is never offered to the patterns — although
the `Function() Constructor` pattern's own check accepts it.  A direct
call `Function("alert(1)")` (a `CallExpression`) is flagged as the
high-severity Code Injection finding the claim describes. -/
theorem c10_new_function_not_flagged :
    scanFileForVulnerabilities "app.ts"
      (some [JsNode.newExpr (.identifier "Function") [.stringLit "alert(1)"] (some 1),
             .identifier "Function", .stringLit "alert(1)"])
      "const handler = new Function(\"alert(1)\")" "app.ts" = [] ∧
    functionConstructorCheck
      (JsNode.newExpr (.identifier "Function") [.stringLit "alert(1)"] (some 1)) = true ∧
    scanAst "app.ts"
      [JsNode.callExpr (.identifier "Function") [.stringLit "alert(1)"] (some 2),
       .identifier "Function", .stringLit "alert(1)"] =
      [{ name := "Function() Constructor", severity := "high"
         description := "new Function() dynamically creates functions from strings, similar to eval(). Avoid using user input."
         source := "code-scan", file := some "app.ts", line := some 2
         category := some "Code Injection" }] := by
  exact ⟨by decide, by decide, by decide⟩

/-- The pattern loop over one line is determined by the first matching
pattern of the list, if any. -/
theorem scanLineLoop_eq_find (relativePath : String) (i : Nat) (line : String)
    (ps : List SecretPattern) :
    scanLineLoop relativePath i line ps =
      match ps.find? (fun q => q.test line) with
      | some p => [mkSecretFinding p relativePath i]
      | none => [] := by
  induction ps with
  | nil => rfl
  | cons p rest ih =>
    rw [scanLineLoop]
    rcases h : p.test line with _ | _
    · rw [List.find?]
      rw [h]
      simpa [h] using ih
    · simp [List.find?, h]

/-- C5: a line whose trimmed form starts with `//`, `*` or `/*` produces no
secret finding, and a non-comment line produces at most one: exactly the
finding of the first pattern (in catalog order) whose test matches, and
none when no pattern matches. -/
theorem c5_secret_line_policy :
    ∀ (relativePath : String) (i : Nat) (line : String),
    (isCommentLine line = true → scanLineForSecrets relativePath i line = []) ∧
    (scanLineForSecrets relativePath i line).length ≤ 1 ∧
    (∀ p : SecretPattern, isCommentLine line = false →
      SECRET_PATTERNS.find? (fun q => q.test line) = some p →
      scanLineForSecrets relativePath i line = [mkSecretFinding p relativePath i]) ∧
    (isCommentLine line = false →
      SECRET_PATTERNS.find? (fun q => q.test line) = none →
      scanLineForSecrets relativePath i line = []) := by
  intro relativePath i line
  refine ⟨?_, ?_, ?_, ?_⟩
  · intro h
    unfold scanLineForSecrets
    rw [h]
    rfl
  · unfold scanLineForSecrets
    rcases h : isCommentLine line with _ | _
    · rw [scanLineLoop_eq_find]
      rcases h2 : SECRET_PATTERNS.find? (fun q => q.test line) with _ | p
      · simp [h2]
      · simp [h2]
    · simp
  · intro p hc hfind
    unfold scanLineForSecrets
    rw [hc]
    rw [scanLineLoop_eq_find]
    rw [hfind]
    rfl
  · intro hc hfind
    unfold scanLineForSecrets
    rw [hc]
    rw [scanLineLoop_eq_find]
    rw [hfind]
    rfl

/-- C5 witness: the secret-looking text on a commented-out line matches a
pattern yet yields zero findings; the same text on a live line yields
exactly one finding (the first matching pattern's). -/
theorem c5_secret_line_policy_witness :
    SECRET_PATTERNS.any (fun p => p.test "  // password = \"supersecretvalue\"") = true ∧
    scanLineForSecrets "config.ts" 0 "  // password = \"supersecretvalue\"" = [] ∧
    (∃ p : SecretPattern,
      scanLineForSecrets "config.ts" 7 "password = \"supersecretvalue\"" =
        [mkSecretFinding p "config.ts" 7]) := by
  refine ⟨by decide, ?_, ?_⟩
  · exact (c5_secret_line_policy "config.ts" 0 "  // password = \"supersecretvalue\"").1
      (by decide)
  · exact ⟨_, (c5_secret_line_policy "config.ts" 7 "password = \"supersecretvalue\"").2.2.1 _
      (by decide) rfl⟩

/-- A 1001-file project whose first file imports the last one: the link
survives the 2000-edge cap but its target is cut by the 1000-node cap. -/
def c3Files : List String := "a.ts" :: (List.replicate 999 "x.ts" ++ ["b.ts"])

/-- Import extraction for `c3Files`: only `a.ts` imports, namely `./b`. -/
def c3Imports : String → List String :=
  fun f => if f = "a.ts" then ["./b"] else []

set_option maxRecDepth 20000 in
/-- C3 counterexample: with 1001 enumerated files where the first imports
the last, the produced graph has the link `a.ts → b.ts` while `b.ts` is
truncated out of the 1000-entry node set, so an edge references a path not
present in the returned nodes.  This falsifies the claim that the
edge-endpoints-in-nodes invariant survives truncation. -/
theorem c3_truncation_counterexample :
    (analyzeFileDependencies c3Files c3Imports).links = [⟨"a.ts", "b.ts"⟩] ∧
    ((analyzeFileDependencies c3Files c3Imports).links.all (fun l =>
      (analyzeFileDependencies c3Files c3Imports).nodes.any (fun n => n.id = l.target))) = false := by
  exact ⟨by decide, by decide⟩

/-- C3 (amended): nodes are the first 1000 enumerated files and links the
first 2000 discovered links, in discovery order; every link's endpoints
are drawn from the full normalized file list, and whenever the project has
at most 1000 files (so node truncation does not bite) both endpoints of
every returned link are present in the returned node set. -/
theorem c3_graph_link_endpoints :
    ∀ (files : List String) (importsOf : String → List String),
    (analyzeFileDependencies files importsOf).nodes =
      (files.map (fun f => GraphNode.mk (replaceBackslashes f))).take 1000 ∧
    (analyzeFileDependencies files importsOf).links =
      (allLinks files importsOf).take 2000 ∧
    (∀ l ∈ (analyzeFileDependencies files importsOf).links,
      l.source ∈ files.map replaceBackslashes ∧ l.target ∈ files.map replaceBackslashes) ∧
    (files.length ≤ 1000 →
      ∀ l ∈ (analyzeFileDependencies files importsOf).links,
        (∃ n ∈ (analyzeFileDependencies files importsOf).nodes, n.id = l.source) ∧
        (∃ n ∈ (analyzeFileDependencies files importsOf).nodes, n.id = l.target)) := by
  intro files importsOf
  have hmem : ∀ l ∈ (analyzeFileDependencies files importsOf).links,
      l.source ∈ files.map replaceBackslashes ∧ l.target ∈ files.map replaceBackslashes := by
    intro l hl
    have hl2 : l ∈ allLinks files importsOf := List.mem_of_mem_take hl
    rw [allLinks] at hl2
    obtain ⟨file, hfile, hl3⟩ := List.mem_flatMap.mp hl2
    obtain ⟨src, hsrc, heq⟩ := List.mem_filterMap.mp hl3
    rcases hrel : isRelativeImport src with _ | _
    · rw [hrel] at heq
      simp at heq
    · rw [hrel] at heq
      rcases hres : resolveRelativeImport files file src with _ | m
      · rw [hres] at heq
        simp at heq
      · rw [hres] at heq
        simp only [if_pos] at heq
        cases heq
        constructor
        · exact List.mem_map_of_mem replaceBackslashes hfile
        · exact resolveRelativeImport_mem files file src m hres
  refine ⟨rfl, rfl, hmem, ?_⟩
  intro hlen l hl
  obtain ⟨hs, ht⟩ := hmem l hl
  have hnodes : (analyzeFileDependencies files importsOf).nodes =
      files.map (fun f => GraphNode.mk (replaceBackslashes f)) := by
    show (files.map (fun f => GraphNode.mk (replaceBackslashes f))).take 1000 = _
    apply List.take_of_length_le
    rw [List.length_map]
    exact hlen
  constructor
  · obtain ⟨f, hf, hfeq⟩ := List.mem_map.mp hs
    refine ⟨GraphNode.mk (replaceBackslashes f), ?_, hfeq⟩
    rw [hnodes]
    exact List.mem_map_of_mem (fun f => GraphNode.mk (replaceBackslashes f)) hf
  · obtain ⟨f, hf, hfeq⟩ := List.mem_map.mp ht
    refine ⟨GraphNode.mk (replaceBackslashes f), ?_, hfeq⟩
    rw [hnodes]
    exact List.mem_map_of_mem (fun f => GraphNode.mk (replaceBackslashes f)) hf

/-- C3 witness for the amended theorem, on a 2-file project whose one link
has both endpoints among the returned nodes. -/
theorem c3_graph_link_endpoints_witness :
    (∃ n ∈ (analyzeFileDependencies ["a.ts", "b.ts"]
        (fun f => if f = "a.ts" then ["./b"] else [])).nodes, n.id = "a.ts") ∧
    (∃ n ∈ (analyzeFileDependencies ["a.ts", "b.ts"]
        (fun f => if f = "a.ts" then ["./b"] else [])).nodes, n.id = "b.ts") := by
  exact (c3_graph_link_endpoints ["a.ts", "b.ts"]
      (fun f => if f = "a.ts" then ["./b"] else [])).2.2.2 (by decide)
    ⟨"a.ts", "b.ts"⟩ (by decide)

/-- Inserting a different name keeps `d` out of the used-set accumulator. -/
theorem insertIfAbsent_not_mem {l : List String} {x d : String}
    (hd : d ∉ l) (hne : d ≠ x) : d ∉ insertIfAbsent l x := by
  unfold insertIfAbsent
  split
  · exact hd
  · intro hmem
    rcases List.mem_append.mp hmem with h | h
    · exact hd h
    · rcases List.mem_singleton.mp h with h2
      exact hne h2

/-- A name never produced by any non-relative import of the file stays out
of the used-set accumulator. -/
theorem collectUsedInFile_not_mem (names : List String) (d : String) :
    ∀ (srcs acc : List String), d ∉ acc →
    (∀ s ∈ srcs, isRelativeImport s = false → getPackageName s ≠ d) →
    d ∉ collectUsedInFile names acc srcs := by
  intro srcs
  induction srcs with
  | nil =>
    intro acc hacc _
    exact hacc
  | cons s rest ih =>
    intro acc hacc h
    rw [collectUsedInFile]
    rcases hrel : isRelativeImport s with _ | _
    · rw [if_neg Bool.false_ne_true]
      show d ∉ (if names.contains (getPackageName s) = true
          then collectUsedInFile names (insertIfAbsent acc (getPackageName s)) rest
          else collectUsedInFile names acc rest)
      rcases hc : names.contains (getPackageName s) with _ | _
      · rw [if_neg Bool.false_ne_true]
        exact ih acc hacc (fun s2 hs2 => h s2 (List.mem_cons_of_mem s hs2))
      · rw [if_pos rfl]
        refine ih _ ?_ (fun s2 hs2 => h s2 (List.mem_cons_of_mem s hs2))
        exact insertIfAbsent_not_mem hacc (Ne.symm (h s (List.mem_cons_self s rest) hrel))
    · rw [if_pos rfl]
      exact ih acc hacc (fun s2 hs2 => h s2 (List.mem_cons_of_mem s hs2))

/-- A name never produced by any non-relative import of any file stays out
of the collected used-set. -/
theorem collectUsedAux_not_mem (names : List String) (importsOf : String → List String)
    (d : String) :
    ∀ (files acc : List String), d ∉ acc →
    (∀ f ∈ files, ∀ s ∈ importsOf f, isRelativeImport s = false → getPackageName s ≠ d) →
    d ∉ collectUsedAux names importsOf acc files := by
  intro files
  induction files with
  | nil =>
    intro acc hacc _
    exact hacc
  | cons f rest ih =>
    intro acc hacc h
    rw [collectUsedAux]
    refine ih _ ?_ (fun f2 hf2 => h f2 (List.mem_cons_of_mem f hf2))
    exact collectUsedInFile_not_mem names d (importsOf f) acc hacc
      (h f (List.mem_cons_self f rest))

/-- C6: a declared package that no file imports lands in `used` never; it
lands in `unused` exactly when it is not build-time-exempt (the fixed set
plus the `@types/` prefix); and for every manifest state the `used` and
`unused` lists are disjoint. -/
theorem c6_build_time_exemption :
    (∀ (pkg : PackageManifest) (files : List String) (importsOf : String → List String)
        (dep : String),
      (∀ f ∈ files, ∀ s ∈ importsOf f, isRelativeImport s = false → getPackageName s ≠ dep) →
      dep ∉ (analyzePackageDeps (.ok pkg) files importsOf).used ∧
      (isBuildTimeDep dep = true →
        dep ∉ (analyzePackageDeps (.ok pkg) files importsOf).unused) ∧
      (isBuildTimeDep dep = false →
        dep ∈ (mergeDeps pkg.dependencies pkg.devDependencies).map Prod.fst →
        dep ∈ (analyzePackageDeps (.ok pkg) files importsOf).unused)) ∧
    (∀ (manifest : ManifestInput) (files : List String) (importsOf : String → List String)
        (x : String),
      x ∈ (analyzePackageDeps manifest files importsOf).used →
      x ∉ (analyzePackageDeps manifest files importsOf).unused) := by
  constructor
  · intro pkg files importsOf dep hno
    have hnot : dep ∉ collectUsedPackages
        ((mergeDeps pkg.dependencies pkg.devDependencies).map Prod.fst) importsOf files := by
      exact collectUsedAux_not_mem _ importsOf dep files [] (by simp) hno
    have hcontains : (collectUsedPackages
        ((mergeDeps pkg.dependencies pkg.devDependencies).map Prod.fst) importsOf files).contains
          dep = false := by
      rcases h : (collectUsedPackages _ importsOf files).contains dep with _ | _
      · rfl
      · exact absurd (by simpa using h) hnot
    refine ⟨?_, ?_, ?_⟩
    · intro hmem
      have h2 := (List.mem_filter.mp hmem).2
      rw [hcontains] at h2
      simp at h2
    · intro hbt hmem
      have h2 := (List.mem_filter.mp hmem).2
      rw [hbt] at h2
      simp at h2
    · intro hbt hdecl
      refine List.mem_filter.mpr ⟨hdecl, ?_⟩
      rw [hcontains, hbt]
      rfl
  · intro manifest files importsOf x
    cases manifest with
    | missing =>
      intro hmem
      simp [analyzePackageDeps, defaultPackageResult] at hmem
    | unreadable =>
      intro hmem
      simp [analyzePackageDeps, defaultPackageResult] at hmem
    | ok pkg =>
      intro hu hun
      have h1 := (List.mem_filter.mp hu).2
      have h2 := (List.mem_filter.mp hun).2
      rcases h : (collectUsedPackages
          ((mergeDeps pkg.dependencies pkg.devDependencies).map Prod.fst) importsOf
          files).contains x with _ | _
      · rw [h] at h1
        simp at h1
      · rw [h] at h2
        simp at h2

/-- C6 witness: with `eslint` declared in both sections and `left-pad`
declared, neither imported anywhere (the only import is `react`), `eslint`
lands in neither list and `left-pad` lands in `unused`. -/
theorem c6_build_time_exemption_witness :
    "eslint" ∉ (analyzePackageDeps
      (.ok ⟨[("eslint", "^8.0.0"), ("left-pad", "^1.3.0")], [("eslint", "^8.0.0")]⟩)
      ["a.ts"] (fun _ => ["react"])).used ∧
    "eslint" ∉ (analyzePackageDeps
      (.ok ⟨[("eslint", "^8.0.0"), ("left-pad", "^1.3.0")], [("eslint", "^8.0.0")]⟩)
      ["a.ts"] (fun _ => ["react"])).unused ∧
    "left-pad" ∈ (analyzePackageDeps
      (.ok ⟨[("eslint", "^8.0.0"), ("left-pad", "^1.3.0")], [("eslint", "^8.0.0")]⟩)
      ["a.ts"] (fun _ => ["react"])).unused := by
  refine ⟨?_, ?_, ?_⟩
  · exact (c6_build_time_exemption.1 ⟨[("eslint", "^8.0.0"), ("left-pad", "^1.3.0")],
      [("eslint", "^8.0.0")]⟩ ["a.ts"] (fun _ => ["react"]) "eslint" (by decide)).1
  · exact (c6_build_time_exemption.1 ⟨[("eslint", "^8.0.0"), ("left-pad", "^1.3.0")],
      [("eslint", "^8.0.0")]⟩ ["a.ts"] (fun _ => ["react"]) "eslint" (by decide)).2.1 (by decide)
  · exact (c6_build_time_exemption.1 ⟨[("eslint", "^8.0.0"), ("left-pad", "^1.3.0")],
      [("eslint", "^8.0.0")]⟩ ["a.ts"] (fun _ => ["react"]) "left-pad" (by decide)).2.2
      (by decide) (by decide)

/-- The final clamp `Math.max(0, Math.min(100, score))` is monotone. -/
theorem clamp_mono {a b : Int} (h : a ≤ b) :
    max 0 (min 100 a) ≤ max 0 (min 100 b) := by
  omega

/-- Appending one finding never lowers the security penalty. -/
theorem securityPenaltyOf_append (sec : List SecurityVulnerability)
    (v : SecurityVulnerability) :
    securityPenaltyOf sec ≤ securityPenaltyOf (sec ++ [v]) := by
  simp only [securityPenaltyOf, List.filter_append, List.length_append]
  omega

/-- Appending one hotspot never lowers the hotspot deduction. -/
theorem hotspotDeduction_append (hotspots : List Hotspot) (h : Hotspot) :
    hotspotDeduction hotspots ≤ hotspotDeduction (hotspots ++ [h]) := by
  simp only [hotspotDeduction, List.filter_append, List.length_append]
  omega

/-- Appending one link never lowers the coupling deduction. -/
theorem couplingDeduction_append (deps : DependencyGraph) (l : GraphLink) :
    couplingDeduction deps ≤
      couplingDeduction { deps with links := deps.links ++ [l] } := by
  rw [couplingDeduction_eq, couplingDeduction_eq]
  dsimp only
  simp only [List.length_append]
  split_ifs <;> omega

/-- C1: the health score is an integer clamped into [0, 100] for every
combination of inputs; the security deduction is capped at 30 (five
critical plus five high findings give exactly 30, not 75); and the score
is monotonically non-increasing as any single penalty input worsens:
appending a finding, one more unused dependency, appending a hotspot,
appending a graph link, or growing the file or line totals never raises
it. -/
theorem c1_health_score_properties :
    ∀ (stats : ProjectStats) (hotspots : List Hotspot) (deps : DependencyGraph)
      (unusedCount : Nat) (security : List SecurityVulnerability),
    (0 ≤ calculateHealthScore stats hotspots deps unusedCount security ∧
     calculateHealthScore stats hotspots deps unusedCount security ≤ 100) ∧
    (∀ sec2 : List SecurityVulnerability,
      (sec2.filter (fun v => v.severity = "critical")).length = 5 →
      (sec2.filter (fun v => v.severity = "high")).length = 5 →
      securityPenaltyOf sec2 = 30) ∧
    (∀ v : SecurityVulnerability,
      calculateHealthScore stats hotspots deps unusedCount (security ++ [v]) ≤
        calculateHealthScore stats hotspots deps unusedCount security) ∧
    (calculateHealthScore stats hotspots deps (unusedCount + 1) security ≤
      calculateHealthScore stats hotspots deps unusedCount security) ∧
    (∀ h : Hotspot,
      calculateHealthScore stats (hotspots ++ [h]) deps unusedCount security ≤
        calculateHealthScore stats hotspots deps unusedCount security) ∧
    (∀ l : GraphLink,
      calculateHealthScore stats hotspots { deps with links := deps.links ++ [l] }
          unusedCount security ≤
        calculateHealthScore stats hotspots deps unusedCount security) ∧
    (∀ d : Nat,
      calculateHealthScore { stats with totalFiles := stats.totalFiles + d } hotspots deps
          unusedCount security ≤
        calculateHealthScore stats hotspots deps unusedCount security) ∧
    (∀ d : Nat,
      calculateHealthScore { stats with totalLOC := stats.totalLOC + d } hotspots deps
          unusedCount security ≤
        calculateHealthScore stats hotspots deps unusedCount security) := by
  intro stats hotspots deps unusedCount security
  refine ⟨⟨?_, ?_⟩, ?_, ?_, ?_, ?_, ?_, ?_, ?_⟩
  · unfold calculateHealthScore
    omega
  · unfold calculateHealthScore
    omega
  · intro sec2 h5c h5h
    simp only [securityPenaltyOf]
    rw [h5c, h5h]
    omega
  · intro v
    unfold calculateHealthScore
    apply clamp_mono
    have h1 := securityPenaltyOf_append security v
    omega
  · unfold calculateHealthScore
    apply clamp_mono
    have h1 : unusedDeduction unusedCount ≤ unusedDeduction (unusedCount + 1) := by
      simp only [unusedDeduction]
      omega
    omega
  · intro h
    unfold calculateHealthScore
    apply clamp_mono
    have h1 := hotspotDeduction_append hotspots h
    omega
  · intro l
    unfold calculateHealthScore
    apply clamp_mono
    have h1 := couplingDeduction_append deps l
    omega
  · intro d
    unfold calculateHealthScore
    apply clamp_mono
    have h1 : filesDeduction stats ≤
        filesDeduction { stats with totalFiles := stats.totalFiles + d } := by
      simp only [filesDeduction]
      split_ifs <;> omega
    have h2 : locDeduction { stats with totalFiles := stats.totalFiles + d } =
        locDeduction stats := rfl
    have h3 : commentDeduction { stats with totalFiles := stats.totalFiles + d } =
        commentDeduction stats := rfl
    omega
  · intro d
    unfold calculateHealthScore
    apply clamp_mono
    have h1 : locDeduction stats ≤
        locDeduction { stats with totalLOC := stats.totalLOC + d } := by
      simp only [locDeduction]
      split_ifs <;> omega
    have h2 : filesDeduction { stats with totalLOC := stats.totalLOC + d } =
        filesDeduction stats := rfl
    have h3 : commentDeduction { stats with totalLOC := stats.totalLOC + d } =
        commentDeduction stats := rfl
    omega

/-- C1 witness: five critical plus five high findings are capped at a
30-point security penalty, and the bounds hold at a concrete input. -/
theorem c1_health_score_properties_witness :
    securityPenaltyOf
      (List.replicate 5 ⟨"c", "critical", "", "code-scan", none, none, none⟩ ++
       List.replicate 5 ⟨"h", "high", "", "code-scan", none, none, none⟩) = 30 := by
  exact (c1_health_score_properties ⟨0, 0, 0, 0, 0⟩ [] ⟨[], []⟩ 0 []).2.1
    (List.replicate 5 ⟨"c", "critical", "", "code-scan", none, none, none⟩ ++
     List.replicate 5 ⟨"h", "high", "", "code-scan", none, none, none⟩)
    (by decide) (by decide)

end Moduly

